import Mathlib

/-!
Shallow embedding of the task-manager core (task state management and
persistence layer) of the `shay-ff/task-manager` repository.

Sources embedded:
* `src/utils/validation.js` — sanitizeInput, validateTaskDescription,
  validateTaskObject, validateTasksArray, validateFilter;
* `src/contexts/TaskContext.jsx` — addTask, toggleTask, deleteTask,
  reorderTasks (the state-updating bodies passed to `setRawTasks`);
* `src/hooks/useLocalStorage.js` — the `setValue` write path, including the
  quota-exceeded remediation branch.

Modelling conventions:
* JavaScript strings are Lean `String`/`List Char` (UTF-16 length and
  codepoint count agree on the BMP inputs used here).
* JavaScript numbers are `Rat` (NaN and the infinities are not modelled;
  no claim in this development depends on them).
* A JavaScript `Date` is kept symbolic: either a known millisecond
  timestamp or an unevaluated `new Date(string)` — no claim inspects the
  result of the host's date parsing.
* Stateful React/localStorage code is modelled by explicit state passing:
  each operation is a pure function from the old state to the new state.
-/

namespace TaskManager

/-! ## Character-level helpers for the `sanitizeInput` regexes -/

/-- JS character class check used for `\s` in the source regexes
(restricted to its ASCII core; the inputs in this development contain no
exotic whitespace). -/
def isWsChar (c : Char) : Bool :=
  c == ' ' || c == '\t' || c == '\n' || c == '\r' || c == '\x0b' || c == '\x0c'

/-- JS `\w` word-character class: `[A-Za-z0-9_]`. -/
def isWordChar (c : Char) : Bool :=
  c.isAlpha || c.isDigit || c == '_'

/-- The single-quote character, written via its code point. -/
def squote : Char := Char.ofNat 39

/-- Case-insensitive prefix test, the building block for the
case-insensitive (`/i`) regex literals of `sanitizeInput`. -/
def startsWithCI : List Char → List Char → Bool
  | [], _ => true
  | _ :: _, [] => false
  | p :: ps, c :: cs => (p.toLower == c.toLower) && startsWithCI ps cs

/-- Case-insensitive substring test (a `/literal/i` regex `.test`). -/
def containsCI (pat : List Char) : List Char → Bool
  | [] => startsWithCI pat []
  | c :: cs => startsWithCI pat (c :: cs) || containsCI pat cs

/-- First replacement of `sanitizeInput`: `.replace(/<[^>]*>/g, '')`.
At each `<` that is followed (anywhere later) by a `>`, the regex removes
everything through the first such `>`; a `<` with no later `>` does not
match and is kept. -/
def stripTags : List Char → List Char
  | [] => []
  | c :: cs =>
    if c == '<' && cs.any (· == '>') then
      stripTags ((cs.dropWhile (· != '>')).drop 1)
    else
      c :: stripTags cs
termination_by l => l.length
decreasing_by
  · have hw : ∀ (p : Char → Bool) (ll : List Char),
        (ll.dropWhile p).length ≤ ll.length := by
      intro p ll
      induction ll with
      | nil => simp [List.dropWhile]
      | cons a as ih =>
        simp only [List.dropWhile]
        split
        · simp only [List.length_cons]; omega
        · simp
    have h1 := hw (· != '>') cs
    simp only [List.length_drop, List.length_cons]
    omega
  · simp only [List.length_cons]
    omega

/-- Helper for the `<script>` block regex: finds the first case-insensitive
occurrence of `</script>` and returns the suffix after it. -/
def findCloseScript : List Char → Option (List Char)
  | [] => none
  | c :: cs =>
    if startsWithCI ("</script>".toList) (c :: cs) then some ((c :: cs).drop 9)
    else findCloseScript cs

/-- Second replacement of `sanitizeInput`:
`.replace(/<script\b[^<]*(?:(?!<\/script>)<[^<]*)*<\/script>/gi, '')`.
A match starts at a case-insensitive `<script` followed by a word
boundary, and extends (through arbitrary chunks that never begin a close
tag) to the first case-insensitive `</script>`; if no close tag follows,
there is no match at that position. -/
def removeScriptBlocks : List Char → List Char
  | [] => []
  | c :: cs =>
    if startsWithCI ("<script".toList) (c :: cs)
        && (match (c :: cs).drop 7 with
            | [] => true
            | d :: _ => !isWordChar d) then
      match h : findCloseScript ((c :: cs).drop 7) with
      | some rest => removeScriptBlocks rest
      | none => c :: removeScriptBlocks cs
    else
      c :: removeScriptBlocks cs
termination_by l => l.length
decreasing_by
  · have key : ∀ (l r : List Char), findCloseScript l = some r → r.length < l.length := by
      intro l r hfc
      induction l with
      | nil => simp [findCloseScript] at hfc
      | cons a as ih =>
        unfold findCloseScript at hfc
        split at hfc
        · cases hfc
          simp only [List.length_drop, List.length_cons]
          omega
        · have := ih hfc
          simp only [List.length_cons]
          omega
    have h1 := key _ _ h
    simp only [List.length_drop, List.length_cons] at h1 ⊢
    omega
  · simp only [List.length_cons]; omega
  · simp only [List.length_cons]; omega

/-- Third replacement of `sanitizeInput`: `.replace(/javascript:/gi, '')`.
Removes every case-insensitive occurrence of the literal, continuing the
scan after each removal (matching JS global-replace semantics, which do
not re-scan the already-emitted prefix). -/
def removeJsProto : List Char → List Char
  | [] => []
  | c :: cs =>
    if startsWithCI ("javascript:".toList) (c :: cs) then
      removeJsProto ((c :: cs).drop 11)
    else
      c :: removeJsProto cs
termination_by l => l.length
decreasing_by
  · simp only [List.length_drop, List.length_cons]
    omega
  · simp only [List.length_cons]; omega

/-- Attempted match of the fourth regex of `sanitizeInput`,
`/\s*on\w+\s*=\s*["'][^"']*["']/gi`, at the head of the list. All the
pieces are greedy and none can profit from backtracking (each piece's
character class is disjoint from what the next piece requires), so a
deterministic maximal-munch scan is equivalent. Returns the suffix after
the match, or `none`. -/
def tryMatchHandler (l : List Char) : Option (List Char) :=
  match l.dropWhile isWsChar with
  | c1 :: c2 :: l2 =>
    if c1.toLower == 'o' && c2.toLower == 'n' then
      if (l2.dropWhile isWordChar).length < l2.length then
        match (l2.dropWhile isWordChar).dropWhile isWsChar with
        | '=' :: l5 =>
          match l5.dropWhile isWsChar with
          | q :: l7 =>
            if q == '"' || q == squote then
              match l7.dropWhile (fun c => !(c == '"' || c == squote)) with
              | _ :: l9 => some l9
              | [] => none
            else none
          | [] => none
        | _ => none
      else none
    else none
  | _ => none

/-- Fourth replacement of `sanitizeInput`: removes every inline event
handler pattern. -/
def removeHandlers : List Char → List Char
  | [] => []
  | c :: cs =>
    match h : tryMatchHandler (c :: cs) with
    | some rest => removeHandlers rest
    | none => c :: removeHandlers cs
termination_by l => l.length
decreasing_by
  · have hw : ∀ (p : Char → Bool) (ll : List Char),
        (ll.dropWhile p).length ≤ ll.length := by
      intro p ll
      induction ll with
      | nil => simp [List.dropWhile]
      | cons a as ih =>
        simp only [List.dropWhile]
        split
        · simp only [List.length_cons]; omega
        · simp
    have key : ∀ (l r : List Char), tryMatchHandler l = some r → r.length < l.length := by
      intro l r hm
      unfold tryMatchHandler at hm
      have h1 := hw isWsChar l
      split at hm
      case _ c1 c2 l2 heq =>
        have hl2 : l2.length + 2 ≤ l.length := by
          have := congrArg List.length heq
          simp only [List.length_cons] at this
          omega
        split at hm
        · split at hm
          case _ hlt =>
            have h3 := hw isWsChar (l2.dropWhile isWordChar)
            split at hm
            case _ l5 heq5 =>
              have hl5 : l5.length + 1 =
                  ((l2.dropWhile isWordChar).dropWhile isWsChar).length := by
                have := congrArg List.length heq5
                simp only [List.length_cons] at this
                omega
              have h6 := hw isWsChar l5
              split at hm
              case _ q l7 heq7 =>
                have hl7 : l7.length + 1 = (l5.dropWhile isWsChar).length := by
                  have := congrArg List.length heq7
                  simp only [List.length_cons] at this
                  omega
                split at hm
                · have h8 := hw (fun c => !(c == '"' || c == squote)) l7
                  split at hm
                  case _ c9 l9 heq9 =>
                    have hl9 : l9.length + 1 =
                        (l7.dropWhile (fun c => !(c == '"' || c == squote))).length := by
                      have := congrArg List.length heq9
                      simp only [List.length_cons] at this
                      omega
                    cases hm
                    omega
                  · exact absurd hm (by simp)
                · exact absurd hm (by simp)
              · exact absurd hm (by simp)
            · exact absurd hm (by simp)
          · exact absurd hm (by simp)
        · exact absurd hm (by simp)
      · exact absurd hm (by simp)
    exact key _ _ h
  · simp only [List.length_cons]; omega

/-- JS `String.prototype.trim`. -/
def jsTrim (l : List Char) : List Char :=
  ((l.dropWhile isWsChar).reverse.dropWhile isWsChar).reverse

/-- `sanitizeInput` from `src/utils/validation.js` (the spec's
`sanitizeText`): the four global regex replacements in source order,
then `trim`. The `typeof input !== 'string'` guard (return `''`) is
subsumed by giving the model domain `String`. -/
def sanitizeInput (input : String) : String :=
  (jsTrim (removeHandlers (removeJsProto (removeScriptBlocks
    (stripTags input.toList))))).asString

/-! ## Data model -/

/-- A JavaScript `Date` value, kept symbolic: either a known millisecond
timestamp (`new Date(n)` / `Date.now()`), or the unevaluated result of
`new Date(string)` (no claim inspects the host's date parsing). -/
inductive DateV where
  | ofMillis : Int → DateV
  | ofString : String → DateV
deriving DecidableEq

/-- A JavaScript value as it can appear in a persisted task field. -/
inductive JSV where
  | str : String → JSV
  | num : Rat → JSV
  | bool : Bool → JSV
  | date : DateV → JSV
  | null : JSV
deriving DecidableEq

/-- Whether a JS value is a number (`typeof v === 'number'`). -/
def JSV.isNum : JSV → Bool
  | .num _ => true
  | _ => false

/-- JS truthiness of an optional field value (`none` = field absent /
`undefined`). -/
def truthy : Option JSV → Bool
  | none => false
  | some (.str s) => s != ""
  | some (.num q) => q != 0
  | some (.bool b) => b
  | some (.date _) => true
  | some .null => false

/-- A validated in-memory task, as produced by `validateTasksArray` and
manipulated by the `TaskContext` operations. `order` is a JS number
(`Rat`): the validators only require it to be a non-negative number. -/
structure Task where
  id : String
  description : String
  completed : Bool
  createdAt : DateV
  order : Rat
deriving DecidableEq

/-- A raw (persisted / unvalidated) task object: each field is optionally
present with an arbitrary JS value. Non-object array elements (rejected
by the `typeof task !== 'object'` guard of `validateTaskObject`) are not
modelled; no claim involves them. Extra fields beyond the five the code
reads (copied verbatim by the `{...task}` spread) are not modelled
either. -/
structure RawTask where
  id : Option JSV
  description : Option JSV
  completed : Option JSV
  createdAt : Option JSV
  order : Option JSV
deriving DecidableEq

/-! ## validation.js -/

/-- Result record of `validateTaskDescription`. -/
structure DescResult where
  isValid : Bool
  error : Option String
  sanitized : String
deriving DecidableEq

/-- The fixed denylist of `validateTaskDescription`
(`suspiciousPatterns.some(p => p.test(description))`, each pattern a
case-insensitive literal). -/
def hasSuspiciousContent (description : String) : Bool :=
  ["javascript:", "vbscript:", "data:", "onload", "onerror", "onclick",
   "<iframe", "<object", "<embed", "<script"].any
    (fun p => containsCI p.toList description.toList)

/-- `validateTaskDescription` from `src/utils/validation.js`. The empty
check runs on the sanitized text, the 500-character check on the
sanitized text (truncating the returned `sanitized`), and the denylist
check on the original, unsanitized input. -/
def validateTaskDescription (description : String) : DescResult :=
  if sanitizeInput description = "" then
    ⟨false, some "Task description cannot be empty", ""⟩
  else if 500 < (sanitizeInput description).length then
    ⟨false, some "Task description must be 500 characters or less",
      ((sanitizeInput description).toList.take 500).asString⟩
  else if hasSuspiciousContent description then
    ⟨false, some "Task description contains invalid characters", sanitizeInput description⟩
  else
    ⟨true, none, sanitizeInput description⟩

/-- Result record of `validateTaskObject`. -/
structure ShapeResult where
  isValid : Bool
  error : Option String
deriving DecidableEq

/-- `validateTaskObject` from `src/utils/validation.js` on a (raw) task
object: required-field presence, field types, then
`validateTaskDescription` on the description content. -/
def validateTaskObject (task : RawTask) : ShapeResult :=
  let missingFields :=
    (if task.id.isSome then [] else ["id"]) ++
    (if task.description.isSome then [] else ["description"]) ++
    (if task.completed.isSome then [] else ["completed"])
  if missingFields ≠ [] then
    ⟨false, some ("Missing required fields: " ++ String.intercalate ", " missingFields)⟩
  else
    match task.id with
    | some (.str idStr) =>
      if idStr = "" then ⟨false, some "Task ID must be a non-empty string"⟩
      else
        match task.description with
        | some (.str descStr) =>
          (match task.completed with
          | some (.bool _) =>
            -- `task.createdAt && !(task.createdAt instanceof Date) && typeof task.createdAt !== 'string'`
            if truthy task.createdAt
                && (match task.createdAt with
                    | some (.date _) => false
                    | some (.str _) => false
                    | _ => true) then
              ⟨false, some "Task createdAt must be a Date or string"⟩
            else
              -- `task.order !== undefined && (typeof task.order !== 'number' || task.order < 0)`
              match task.order with
              | none =>
                let dv := validateTaskDescription descStr
                if dv.isValid then ⟨true, none⟩
                else ⟨false, some ("Task description validation failed: " ++ dv.error.getD "")⟩
              | some (.num q) =>
                if q < 0 then ⟨false, some "Task order must be a non-negative number"⟩
                else
                  let dv := validateTaskDescription descStr
                  if dv.isValid then ⟨true, none⟩
                  else ⟨false, some ("Task description validation failed: " ++ dv.error.getD "")⟩
              | some _ => ⟨false, some "Task order must be a non-negative number"⟩
          | _ => ⟨false, some "Task completed status must be a boolean"⟩)
        | _ => ⟨false, some "Task description must be a string"⟩
    | _ => ⟨false, some "Task ID must be a non-empty string"⟩

/-- The element sanitization applied by `validateTasksArray` to a task
that passed `validateTaskObject` (so the wildcard fallbacks below are
unreachable): re-sanitize the description, coerce `createdAt`
(`task.createdAt instanceof Date ? task.createdAt : new Date(task.createdAt || Date.now())`),
and coerce `order` to the positional index `i` when not a number.
`now` is the current clock reading used by `Date.now()`. -/
def sanitizeRawTask (now : Int) (i : Nat) (task : RawTask) : Task :=
  { id := match task.id with
          | some (.str s) => s
          | _ => ""
    description := match task.description with
                   | some (.str s) => (validateTaskDescription s).sanitized
                   | _ => ""
    completed := match task.completed with
                 | some (.bool b) => b
                 | _ => false
    createdAt := match task.createdAt with
                 | some (.date d) => d
                 | other =>
                   if truthy other then
                     match other with
                     | some (.str s) => DateV.ofString s
                     | _ => DateV.ofMillis now
                   else DateV.ofMillis now
    order := match task.order with
             | some (.num q) => q
             | _ => (i : Rat) }

/-- The indexed loop body of `validateTasksArray`: returns the surviving
sanitized tasks and the error strings, both in original order. -/
def validateTasksAux (now : Int) (i : Nat) : List RawTask → (List Task × List String)
  | [] => ([], [])
  | task :: rest =>
    let tail := validateTasksAux now (i + 1) rest
    if (validateTaskObject task).isValid then
      (sanitizeRawTask now i task :: tail.1, tail.2)
    else
      (tail.1,
       ("Task " ++ toString i ++ ": " ++ (validateTaskObject task).error.getD "") :: tail.2)

/-- Result record of `validateTasksArray`. -/
structure TasksResult where
  isValid : Bool
  error : Option String
  sanitizedTasks : List Task
  removedCount : Nat
deriving DecidableEq

/-- `validateTasksArray` from `src/utils/validation.js` (the spec's
`validateTaskCollection`), on an array input (the `!Array.isArray`
branch is subsumed by giving the model domain `List RawTask`). `now` is
the clock reading `Date.now()` would return during this run. -/
def validateTasksArray (now : Int) (tasks : List RawTask) : TasksResult :=
  let res := validateTasksAux now 0 tasks
  { isValid := res.2.isEmpty
    error := if res.2.isEmpty then none else some (String.intercalate "; " res.2)
    sanitizedTasks := res.1
    removedCount := tasks.length - res.1.length }

/-- Result record of `validateFilter`. -/
structure FilterResult where
  isValid : Bool
  error : Option String
  sanitized : String
deriving DecidableEq

/-- `validateFilter` from `src/utils/validation.js` (the spec's
`validateFilterValue`). -/
def validateFilter (filter : String) : FilterResult :=
  if ["all", "completed", "pending"].contains filter then
    ⟨true, none, filter⟩
  else
    ⟨false, some "Invalid filter type. Must be one of: all, completed, pending", "all"⟩

/-! ## TaskContext.jsx

The task collection state is the list of validated tasks. `rawTasks` and
the validated `tasks` view coincide in the steady state modelled here
(every stored task passes validation), so the operations are modelled
directly on `List Task`. -/

/-- `addTask` from `src/contexts/TaskContext.jsx`. `now` models
`new Date()` at the call, `freshId` models the `uuidv4()` draw. The
first component is the message of the `Error` thrown to the caller
(`none` on success); the second is the resulting collection. -/
def addTask (now : Int) (freshId : String) (description : String)
    (tasks : List Task) : Option String × List Task :=
  let validation := validateTaskDescription description
  if validation.isValid then
    (none, tasks ++ [{ id := freshId
                       description := validation.sanitized
                       completed := false
                       createdAt := DateV.ofMillis now
                       order := (tasks.length : Rat) }])
  else
    (validation.error, tasks)

/-- `toggleTask` from `src/contexts/TaskContext.jsx`. The
`!id || typeof id !== 'string'` guard reduces to `id = ""` on the
`String` domain. -/
def toggleTask (id : String) (tasks : List Task) : List Task :=
  if id = "" then tasks
  else tasks.map fun t => if t.id = id then { t with completed := !t.completed } else t

/-- The `.map((task, index) => ({...task, order: index}))` renumbering
shared by `deleteTask` and `reorderTasks`. -/
def renumber (tasks : List Task) : List Task :=
  tasks.mapIdx fun i t => { t with order := (i : Rat) }

/-- `deleteTask` from `src/contexts/TaskContext.jsx`. -/
def deleteTask (id : String) (tasks : List Task) : List Task :=
  if id = "" then tasks
  else renumber (tasks.filter fun t => t.id != id)

/-- `reorderTasks` from `src/contexts/TaskContext.jsx`. The indices are
JS values: non-numbers fail the `typeof` guard. In-range fractional
numbers pass all guards and are truncated by `splice`
(`ToIntegerOrInfinity`); for the non-negative values reaching the splice
this is `Rat.floor`. The `none` fallback of the `get?` lookup is
unreachable under the bounds guards. -/
def reorderTasks (startIndex endIndex : JSV) (tasks : List Task) : List Task :=
  match startIndex, endIndex with
  | .num s, .num e =>
    if s < 0 ∨ e < 0 then tasks
    else if (tasks.length : Rat) ≤ s ∨ (tasks.length : Rat) ≤ e then tasks
    else
      match tasks.get? s.floor.toNat with
      | some removed => renumber ((tasks.eraseIdx s.floor.toNat).insertIdx e.floor.toNat removed)
      | none => tasks
  | _, _ => tasks

/-! ## useLocalStorage.js — the `setValue` write path

Persisted values are modelled at the domain level (a `JSON.stringify` /
`JSON.parse` round trip is the identity on them). Availability of the
underlying store is modelled as a constant of the state. -/

/-- The `errorState` record of `useLocalStorage`. -/
structure ErrorState where
  hasError : Bool
  errorType : Option String
  errorMessage : Option String
deriving DecidableEq

/-- The cleared error state. -/
def noError : ErrorState := ⟨false, none, none⟩

/-- State of the `useLocalStorage('taskFilter', 'all')` instance:
in-memory value, persisted entry, error signal, store availability. -/
structure FilterStore where
  memory : String
  persisted : Option String
  errorState : ErrorState
  available : Bool
deriving DecidableEq

/-- `setValue` from `src/hooks/useLocalStorage.js`, specialized to the
`taskFilter` key (so `validateStoredData` runs `validateFilter`); this is
the Task Store's `setFilter`. Invalid data is rejected with an early
return before any state or store update. The serialized size of the
three legal filter strings is far below the 5 MiB guard, and no
underlying-store failure is modelled here (the failure branches are
modelled on the tasks instance below); on the inputs of interest the try
body completes normally. -/
def setFilterValue (value : String) (st : FilterStore) : FilterStore :=
  let validation := validateFilter value
  if !validation.isValid then
    { st with errorState :=
        ⟨true, some "INVALID_DATA",
         some ("Cannot store invalid data: " ++ validation.error.getD "")⟩ }
  else
    let dataToStore := validation.sanitized
    if st.available then
      { st with memory := dataToStore
                persisted := some dataToStore
                errorState := noError }
    else
      { st with memory := dataToStore }

/-- Outcome of one underlying `window.localStorage.setItem` call. -/
inductive SetOutcome where
  | ok
  | quotaErr
  | secErr
  | otherErr : String → SetOutcome
deriving DecidableEq

/-- State of the `useLocalStorage('tasks', [])` instance. `setOutcomes`
scripts the outcomes of successive underlying `setItem` calls (head
consumed per call; an exhausted script behaves as success). -/
structure TasksStore where
  memory : List Task
  tasksV : Option (List Task)
  filterV : Option String
  themeV : Option String
  errorState : ErrorState
  available : Bool
  setOutcomes : List SetOutcome
deriving DecidableEq

/-- The raw object a validated task round-trips to when it is handed
back to `validateLocalStorageData('tasks', ...)` on a write. -/
def Task.toRaw (t : Task) : RawTask :=
  ⟨some (.str t.id), some (.str t.description), some (.bool t.completed),
   some (.date t.createdAt), some (.num t.order)⟩

/-- `setValue` from `src/hooks/useLocalStorage.js`, specialized to the
`tasks` key (so `validateStoredData` runs `validateTasksArray`).

The quota branch follows the source exactly: the catch classifies the
error as `QUOTA_EXCEEDED`, deletes the non-essential keys `taskFilter`
and `theme` (every known key except the one being written), and then
attempts `window.localStorage.setItem(key, JSON.stringify(valueToStore))`.
That expression references the catch-scoped `const valueToStore`
(declared at the bottom of the catch block, line 205) while it is still
in its temporal dead zone, so evaluating the argument throws a
`ReferenceError` before `setItem` is reached; the inner
`catch (retryError)` swallows it. Hence the retry never writes the store,
no second `setOutcomes` entry is consumed, and `errorMessage` is never
upgraded to the after-cleanup success text. The catch block then records
the error state and re-runs `setStoredValue` with the raw value.

The 5 MiB serialized-size guard (whose thrown message contains neither a
`QuotaExceededError` name nor the substring `quota`, so it classifies as
`WRITE_ERROR`) is not reachable for the small collections used in this
development and is not modelled. -/
def setTasksValue (now : Int) (value : List Task) (st : TasksStore) : TasksStore :=
  let validation := validateTasksArray now (value.map Task.toRaw)
  if !validation.isValid then
    { st with errorState :=
        ⟨true, some "INVALID_DATA",
         some ("Cannot store invalid data: " ++ validation.error.getD "")⟩ }
  else
    let dataToStore := validation.sanitizedTasks
    if st.available then
      match st.setOutcomes with
      | SetOutcome.quotaErr :: rest =>
        { st with
            memory := value
            filterV := none
            themeV := none
            errorState :=
              ⟨true, some "QUOTA_EXCEEDED",
               some "Storage quota exceeded. Try deleting some tasks or clearing browser data."⟩
            setOutcomes := rest }
      | SetOutcome.secErr :: rest =>
        { st with
            memory := value
            errorState :=
              ⟨true, some "SECURITY_ERROR",
               some "Cannot access localStorage due to security restrictions."⟩
            setOutcomes := rest }
      | SetOutcome.otherErr m :: rest =>
        { st with
            memory := value
            errorState := ⟨true, some "WRITE_ERROR", some m⟩
            setOutcomes := rest }
      | SetOutcome.ok :: rest =>
        { st with
            memory := dataToStore
            tasksV := some dataToStore
            errorState := noError
            setOutcomes := rest }
      | [] =>
        { st with
            memory := dataToStore
            tasksV := some dataToStore
            errorState := noError }
    else
      { st with memory := dataToStore }

/-- The complete `addTask` path as the program executes it:
`TaskContext.addTask` validates the description and throws on failure;
on success it constructs the new task and hands
`prevTasks => [...prevTasks, newTask]` to `setRawTasks`, which is
`useLocalStorage.setValue` for the `tasks` key — i.e. `setTasksValue`
applied to `st.memory ++ [newTask]`. That setter re-runs
`validateTasksArray` on the new array and rejects the whole write (early
return, `INVALID_DATA`, no state change, nothing thrown) if any element
— in particular the freshly sanitized description — fails re-validation.
The first component is the message of the `Error` thrown to the caller
(`none` when nothing is thrown, including the silent-rejection case). -/
def addTaskFull (now : Int) (freshId description : String)
    (st : TasksStore) : Option String × TasksStore :=
  let validation := validateTaskDescription description
  if validation.isValid then
    (none, setTasksValue now
      (st.memory ++ [{ id := freshId
                       description := validation.sanitized
                       completed := false
                       createdAt := DateV.ofMillis now
                       order := (st.memory.length : Rat) }])
      st)
  else
    (validation.error, st)

/-! ## Specification-side predicates and concrete fixtures -/

/-- The dense-order invariant of the spec: the multiset of `order` values
is exactly that of `0, 1, ..., n-1` (equal as a set, with no
duplicates). -/
def ordersDense (ts : List Task) : Prop :=
  ((ts.map Task.order : List Rat) : Multiset Rat) =
    (((List.range ts.length).map (fun i : Nat => (i : Rat)) : List Rat) : Multiset Rat)

instance (ts : List Task) : Decidable (ordersDense ts) := by
  unfold ordersDense; infer_instance

/-- Concrete fixture task. -/
def taskA : Task := ⟨"a", "buy milk", false, DateV.ofMillis 0, 0⟩

/-- Concrete fixture task. -/
def taskB : Task := ⟨"b", "walk dog", false, DateV.ofMillis 0, 1⟩

/-- A well-formed raw task whose stored `order` is `5`. -/
def rawOrderFive : RawTask :=
  ⟨some (.str "a"), some (.str "buy milk"), some (.bool false),
   some (.date (DateV.ofMillis 0)), some (.num 5)⟩

/-- A well-formed raw task with no `createdAt` field. -/
def rawNoDate : RawTask :=
  ⟨some (.str "a"), some (.str "buy milk"), some (.bool false), none, some (.num 0)⟩

/-- An invalid raw task (missing `description`) that also lacks
`createdAt`: it is dropped by load-time repair. -/
def rawMissingDesc : RawTask :=
  ⟨some (.str "x"), none, some (.bool false), none, none⟩

/-- A `TasksStore` holding no tasks, with a working underlying store. -/
def emptyTasksStore : TasksStore := ⟨[], none, none, none, noError, true, []⟩

/-- A `FilterStore` whose active and persisted filter is `"completed"`. -/
def filterStoreCompleted : FilterStore := ⟨"completed", some "completed", noError, true⟩

/-- A `TasksStore` holding one task, whose next underlying `setItem`
throws a quota error while the one after would succeed. -/
def quotaStore : TasksStore :=
  ⟨[taskA], some [taskA], some "all", some "light", noError, true,
   [SetOutcome.quotaErr, SetOutcome.ok]⟩

/-! ## Helper theorems -/

/-- Concrete evaluation: a plain description is left unchanged. -/
theorem sanitizeInput_buyMilk : sanitizeInput "buy milk" = "buy milk" := by
  simp +decide [sanitizeInput, stripTags, removeScriptBlocks, removeJsProto, removeHandlers,
    tryMatchHandler, findCloseScript, startsWithCI, jsTrim, isWsChar, squote, isWordChar,
    List.asString, List.dropWhile, List.drop, List.any]

/-- Concrete evaluation: a plain description is left unchanged. -/
theorem sanitizeInput_walkDog : sanitizeInput "walk dog" = "walk dog" := by
  simp +decide [sanitizeInput, stripTags, removeScriptBlocks, removeJsProto, removeHandlers,
    tryMatchHandler, findCloseScript, startsWithCI, jsTrim, isWsChar, squote, isWordChar,
    List.asString, List.dropWhile, List.drop, List.any]

/-- Concrete evaluation: the tag-stripping pass removes `<iframe>` whole. -/
theorem sanitizeInput_iframe : sanitizeInput "<iframe>" = "" := by
  simp +decide [sanitizeInput, stripTags, removeScriptBlocks, removeJsProto, removeHandlers,
    tryMatchHandler, findCloseScript, startsWithCI, jsTrim, isWsChar, squote, isWordChar,
    List.asString, List.dropWhile, List.drop, List.any]

/-- Concrete evaluation: the tag-stripping pass removes `<script>` whole. -/
theorem sanitizeInput_scriptTag : sanitizeInput "<script>" = "" := by
  simp +decide [sanitizeInput, stripTags, removeScriptBlocks, removeJsProto, removeHandlers,
    tryMatchHandler, findCloseScript, startsWithCI, jsTrim, isWsChar, squote, isWordChar,
    List.asString, List.dropWhile, List.drop, List.any]

/-- Concrete evaluation: tag stripping runs before the script-block pass,
so the script body text survives. -/
theorem sanitizeInput_scriptAlert :
    sanitizeInput "<script>alert(1)</script>hello" = "alert(1)hello" := by
  simp +decide [sanitizeInput, stripTags, removeScriptBlocks, removeJsProto, removeHandlers,
    tryMatchHandler, findCloseScript, startsWithCI, jsTrim, isWsChar, squote, isWordChar,
    List.asString, List.dropWhile, List.drop, List.any]

/-- Concrete evaluation: the `javascript:` pass removes the protocol
prefix but the denylist still fires on the original input. -/
theorem sanitizeInput_jsProto : sanitizeInput "javascript:x" = "x" := by
  simp +decide [sanitizeInput, stripTags, removeScriptBlocks, removeJsProto, removeHandlers,
    tryMatchHandler, findCloseScript, startsWithCI, jsTrim, isWsChar, squote, isWordChar,
    List.asString, List.dropWhile, List.drop, List.any]

/-- Concrete evaluation: tag stripping deletes the empty tag pair,
gluing `on` and `load` into the denylisted word `onload`. -/
theorem sanitizeInput_onBrktLoad : sanitizeInput "on<>load" = "onload" := by
  simp +decide [sanitizeInput, stripTags, removeScriptBlocks, removeJsProto, removeHandlers,
    tryMatchHandler, findCloseScript, startsWithCI, jsTrim, isWsChar, squote, isWordChar,
    List.asString, List.dropWhile, List.drop, List.any]

/-- Concrete evaluation: `onload` is already sanitized (no `=`-quoted
value follows, so the handler regex does not match). -/
theorem sanitizeInput_onload : sanitizeInput "onload" = "onload" := by
  simp +decide [sanitizeInput, stripTags, removeScriptBlocks, removeJsProto, removeHandlers,
    tryMatchHandler, findCloseScript, startsWithCI, jsTrim, isWsChar, squote, isWordChar,
    List.asString, List.dropWhile, List.drop, List.any]

/-- Concrete evaluation of the description validator. -/
theorem validateTaskDescription_buyMilk :
    validateTaskDescription "buy milk" = ⟨true, none, "buy milk"⟩ := by
  unfold validateTaskDescription
  rw [sanitizeInput_buyMilk]
  simp +decide [hasSuspiciousContent, containsCI, startsWithCI]

/-- Concrete evaluation of the description validator. -/
theorem validateTaskDescription_walkDog :
    validateTaskDescription "walk dog" = ⟨true, none, "walk dog"⟩ := by
  unfold validateTaskDescription
  rw [sanitizeInput_walkDog]
  simp +decide [hasSuspiciousContent, containsCI, startsWithCI]

/-- Concrete evaluation: the original `on<>load` passes the denylist
(it contains no contiguous denylisted word), so validation succeeds with
sanitized form `onload`. -/
theorem validateTaskDescription_onBrktLoad :
    validateTaskDescription "on<>load" = ⟨true, none, "onload"⟩ := by
  unfold validateTaskDescription
  rw [sanitizeInput_onBrktLoad]
  simp +decide [hasSuspiciousContent, containsCI, startsWithCI]

/-- Concrete evaluation: the sanitized form `onload` itself trips the
denylist on re-validation. -/
theorem validateTaskDescription_onload :
    validateTaskDescription "onload" =
      ⟨false, some "Task description contains invalid characters", "onload"⟩ := by
  unfold validateTaskDescription
  rw [sanitizeInput_onload]
  simp +decide [hasSuspiciousContent, containsCI, startsWithCI]

/-- A task whose fields re-validate (non-empty id, non-negative numeric
order, description a valid fixed point of the validator) passes
`validateTaskObject` after the round trip through its raw form. -/
theorem validateTaskObject_toRaw (t : Task) (hid : t.id ≠ "")
    (hord : ¬(t.order < 0))
    (hdesc : validateTaskDescription t.description = ⟨true, none, t.description⟩) :
    validateTaskObject (Task.toRaw t) = ⟨true, none⟩ := by
  simp [validateTaskObject, Task.toRaw, truthy, hid, hord, hdesc]

/-- Element re-sanitization is the identity on such a task. -/
theorem sanitizeRawTask_toRaw (now : Int) (i : Nat) (t : Task)
    (hdesc : validateTaskDescription t.description = ⟨true, none, t.description⟩) :
    sanitizeRawTask now i (Task.toRaw t) = t := by
  simp [sanitizeRawTask, Task.toRaw, hdesc]

/-- On a collection of such tasks the re-validation loop keeps every
task unchanged and reports no error. -/
theorem validateTasksAux_toRaw (now : Int) (i : Nat) (l : List Task)
    (h : ∀ t ∈ l, t.id ≠ "" ∧ ¬(t.order < 0) ∧
         validateTaskDescription t.description = ⟨true, none, t.description⟩) :
    validateTasksAux now i (l.map Task.toRaw) = (l, []) := by
  induction l generalizing i with
  | nil => rfl
  | cons t rest ih =>
    obtain ⟨hid, hord, hdesc⟩ := h t (List.mem_cons_self t rest)
    have hrest := fun r hr => h r (List.mem_cons_of_mem t hr)
    simp only [List.map_cons, validateTasksAux, ih (i + 1) hrest,
      validateTaskObject_toRaw t hid hord hdesc, sanitizeRawTask_toRaw now i t hdesc]
    simp

/-- `validateTasksArray` accepts such a collection unchanged. -/
theorem validateTasksArray_toRaw (now : Int) (v : List Task)
    (h : ∀ t ∈ v, t.id ≠ "" ∧ ¬(t.order < 0) ∧
         validateTaskDescription t.description = ⟨true, none, t.description⟩) :
    validateTasksArray now (v.map Task.toRaw) = ⟨true, none, v, 0⟩ := by
  unfold validateTasksArray
  rw [validateTasksAux_toRaw now 0 v h]
  simp

/-- Writing such a collection always advances the in-memory state to it,
whatever the underlying store does (success, quota, security or other
failure, or unavailability). -/
theorem setTasksValue_memory (now : Int) (v : List Task) (st : TasksStore)
    (h : ∀ t ∈ v, t.id ≠ "" ∧ ¬(t.order < 0) ∧
         validateTaskDescription t.description = ⟨true, none, t.description⟩) :
    (setTasksValue now v st).memory = v := by
  have harr := validateTasksArray_toRaw now v h
  obtain ⟨mem, tv, fv, thv, es, av, so⟩ := st
  rcases so with _ | ⟨o, rest⟩
  · cases av <;> simp [setTasksValue, harr]
  · cases o <;> cases av <;> simp [setTasksValue, harr]

/-- The renumbering map writes exactly the positional indices into
`order`. -/
theorem renumber_orders (ts : List Task) :
    (renumber ts).map Task.order = (List.range ts.length).map (fun i : Nat => (i : Rat)) := by
  unfold renumber
  rw [List.mapIdx_eq_enum_map, List.map_map]
  have hcomp : (Task.order ∘ Function.uncurry fun (i : Nat) (t : Task) =>
      { t with order := (i : Rat) }) = (fun i : Nat => (i : Rat)) ∘ Prod.fst := rfl
  rw [hcomp, ← List.map_map, List.enum_map_fst]

theorem ordersDense_renumber (ts : List Task) : ordersDense (renumber ts) := by
  unfold ordersDense
  have hlen : (renumber ts).length = ts.length := by simp [renumber]
  rw [renumber_orders, hlen]

/-- `validateTaskDescription` always returns one of its four literal
outcome records. -/
theorem validateTaskDescription_cases (d : String) :
    validateTaskDescription d = ⟨true, none, sanitizeInput d⟩ ∨
    validateTaskDescription d = ⟨false, some "Task description cannot be empty", ""⟩ ∨
    validateTaskDescription d =
      ⟨false, some "Task description must be 500 characters or less",
       ((sanitizeInput d).toList.take 500).asString⟩ ∨
    validateTaskDescription d =
      ⟨false, some "Task description contains invalid characters", sanitizeInput d⟩ := by
  unfold validateTaskDescription
  split
  · right; left; rfl
  · split
    · right; right; left; rfl
    · split
      · right; right; right; rfl
      · left; rfl

/-! ## Claims -/

/-- C1 (counterexample): load-time repair does not re-densify `order`.
A stored collection holding one well-formed task whose `order` is `5`
survives `validateTasksArray` with `order` still `5`, so the set of
`order` values of the loaded collection is `{5}`, not `{0}`. -/
theorem claim1_counterexample :
    ¬ ordersDense (validateTasksArray 0 [rawOrderFive]).sanitizedTasks := by
  have h : (validateTasksArray 0 [rawOrderFive]).sanitizedTasks =
      [⟨"a", "buy milk", false, DateV.ofMillis 0, 5⟩] := by
    simp +decide [validateTasksArray, validateTasksAux, validateTaskObject, sanitizeRawTask,
      rawOrderFive, truthy, validateTaskDescription, sanitizeInput_buyMilk,
      hasSuspiciousContent, containsCI, startsWithCI]
  rw [h]
  decide

/-- C1 (amended): every `deleteTask` call and every `reorderTasks` call
either leaves the collection unchanged (the invalid-input no-op paths)
or leaves the `order` values exactly `{0, 1, ..., n-1}`; the load-time
part of the original claim is false (see the counterexample), since
`validateTasksArray` keeps any stored numeric `order` as is. -/
theorem claim1_order_invariant :
    (∀ (tasks : List Task) (tid : String),
        deleteTask tid tasks = tasks ∨ ordersDense (deleteTask tid tasks)) ∧
    (∀ (tasks : List Task) (s e : JSV),
        reorderTasks s e tasks = tasks ∨ ordersDense (reorderTasks s e tasks)) := by
  constructor
  · intro tasks tid
    by_cases h : tid = ""
    · left; simp [deleteTask, h]
    · right
      simp only [deleteTask, if_neg h]
      exact ordersDense_renumber _
  · intro tasks s e
    cases s with
    | num qs =>
      cases e with
      | num qe =>
        by_cases h1 : qs < 0 ∨ qe < 0
        · left; simp [reorderTasks, h1]
        · by_cases h2 : ((tasks.length : Rat) ≤ qs ∨ (tasks.length : Rat) ≤ qe)
          · left; simp [reorderTasks, h1, h2]
          · cases hget : tasks.get? qs.floor.toNat with
            | none => left; simp only [reorderTasks, if_neg h1, if_neg h2, hget]
            | some removed =>
              right
              simp only [reorderTasks, if_neg h1, if_neg h2, hget]
              exact ordersDense_renumber _
      | str v => left; rfl
      | bool v => left; rfl
      | date v => left; rfl
      | null => left; rfl
    | str v => left; rfl
    | bool v => left; rfl
    | date v => left; rfl
    | null => left; rfl

/-- C2 (code bug): on the spec's own example input `sanitizeInput`
returns `"alert(1)hello"`, not `"hello"`. The tag-stripping replacement
runs first and removes only the `<script>` and `</script>` tags, leaving
the script body text; the subsequent script-block replacement can then
no longer match. -/
theorem claim2_script_block :
    sanitizeInput "<script>alert(1)</script>hello" = "alert(1)hello" ∧
    sanitizeInput "<script>alert(1)</script>hello" ≠ "hello" := by
  refine ⟨sanitizeInput_scriptAlert, ?_⟩
  rw [sanitizeInput_scriptAlert]
  decide

/-- C3 (counterexample): the claim fails for the description `on<>load`.
It satisfies every premise of the claim — its sanitized form `onload` is
non-empty and short, and the original passes the denylist (no contiguous
denylisted word) — yet `addTask` adds nothing: the constructed task's
sanitized description `onload` trips the denylist when the persistence
setter re-validates the new array, so the write is rejected with an
early return and the collection stays empty, while the caller receives
no rejection either. -/
theorem claim3_counterexample :
    sanitizeInput "on<>load" ≠ "" ∧
    (sanitizeInput "on<>load").length ≤ 500 ∧
    hasSuspiciousContent "on<>load" = false ∧
    (addTaskFull 0 "b" "on<>load" emptyTasksStore).1 = none ∧
    (addTaskFull 0 "b" "on<>load" emptyTasksStore).2.memory = [] := by
  refine ⟨by rw [sanitizeInput_onBrktLoad]; decide,
          by rw [sanitizeInput_onBrktLoad]; decide,
          by decide, ?_, ?_⟩
  · simp [addTaskFull, validateTaskDescription_onBrktLoad]
  · simp +decide [addTaskFull, validateTaskDescription_onBrktLoad, setTasksValue,
      validateTasksArray, validateTasksAux, validateTaskObject, Task.toRaw, truthy,
      validateTaskDescription_onload, emptyTasksStore]

/-- C3 (amended): for a description whose sanitized form is non-empty,
at most 500 characters, and which passes the denylist, `addTask` with a
non-empty fresh id throws nothing; the append reaches the collection
exactly when the persistence setter's re-validation also passes — which
additionally requires the sanitized description to be a valid fixed
point of the validator and every existing task to re-validate. Under
those conditions the collection grows by exactly one appended task with
the sanitized description, `completed = false`, `order` equal to the
prior size, and the fresh id distinct from every existing id (otherwise
the write is silently rejected, as in the counterexample). -/
theorem claim3_addTask_appends (now : Int) (freshId description : String)
    (st : TasksStore)
    (h1 : sanitizeInput description ≠ "")
    (h2 : (sanitizeInput description).length ≤ 500)
    (h3 : hasSuspiciousContent description = false)
    (h4 : freshId ∉ st.memory.map Task.id)
    (h5 : freshId ≠ "")
    (h6 : validateTaskDescription (sanitizeInput description) =
          ⟨true, none, sanitizeInput description⟩)
    (h7 : ∀ t ∈ st.memory, t.id ≠ "" ∧ ¬(t.order < 0) ∧
          validateTaskDescription t.description = ⟨true, none, t.description⟩) :
    (addTaskFull now freshId description st).1 = none ∧
    (addTaskFull now freshId description st).2.memory =
      st.memory ++ [⟨freshId, sanitizeInput description, false,
                     DateV.ofMillis now, (st.memory.length : Rat)⟩] ∧
    (addTaskFull now freshId description st).2.memory.length = st.memory.length + 1 ∧
    ∀ t ∈ st.memory, t.id ≠ freshId := by
  have hv : validateTaskDescription description = ⟨true, none, sanitizeInput description⟩ := by
    unfold validateTaskDescription
    rw [if_neg h1, if_neg (by omega), if_neg (by simp [h3])]
  have hwf : ∀ t ∈ st.memory ++ [⟨freshId, sanitizeInput description, false,
      DateV.ofMillis now, (st.memory.length : Rat)⟩],
      t.id ≠ "" ∧ ¬(t.order < 0) ∧
      validateTaskDescription t.description = ⟨true, none, t.description⟩ := by
    intro t ht
    rcases List.mem_append.1 ht with hmem | hnew
    · exact h7 t hmem
    · rw [List.mem_singleton] at hnew
      subst hnew
      refine ⟨h5, ?_, h6⟩
      simp
  have hstep : addTaskFull now freshId description st =
      (none, setTasksValue now
        (st.memory ++ [⟨freshId, sanitizeInput description, false,
                        DateV.ofMillis now, (st.memory.length : Rat)⟩]) st) := by
    simp [addTaskFull, hv]
  have hmem : (addTaskFull now freshId description st).2.memory =
      st.memory ++ [⟨freshId, sanitizeInput description, false,
                     DateV.ofMillis now, (st.memory.length : Rat)⟩] := by
    rw [hstep]
    exact setTasksValue_memory now _ st hwf
  refine ⟨by simp [addTaskFull, hv], hmem, by rw [hmem]; simp, ?_⟩
  intro t ht hid
  exact h4 (hid ▸ List.mem_map_of_mem Task.id ht)

/-- Witness for C3 at a concrete input: adding `walk dog` to a store
holding one re-validating task appends it with order 1. -/
theorem claim3_witness :
    (addTaskFull 0 "b" "walk dog" ⟨[taskA], some [taskA], some "all", none,
        noError, true, []⟩).1 = none ∧
    (addTaskFull 0 "b" "walk dog" ⟨[taskA], some [taskA], some "all", none,
        noError, true, []⟩).2.memory =
      [taskA, ⟨"b", "walk dog", false, DateV.ofMillis 0, 1⟩] := by
  have h := claim3_addTask_appends 0 "b" "walk dog"
    ⟨[taskA], some [taskA], some "all", none, noError, true, []⟩
    (by rw [sanitizeInput_walkDog]; decide)
    (by rw [sanitizeInput_walkDog]; decide)
    (by decide)
    (by decide)
    (by decide)
    (by rw [sanitizeInput_walkDog]; exact validateTaskDescription_walkDog)
    (by
      intro t ht
      have heq := List.mem_singleton.1 ht
      subst heq
      exact ⟨by decide, by decide, validateTaskDescription_buyMilk⟩)
  refine ⟨h.1, ?_⟩
  rw [h.2.1, sanitizeInput_walkDog]
  norm_num [taskA]

/-- C4 (counterexample): `setFilter("bogus")` does not fall back to
`"all"`: from a state whose active filter is `"completed"` the invalid
write is rejected as a no-op and the active filter stays
`"completed"`. -/
theorem claim4_counterexample :
    (setFilterValue "bogus" filterStoreCompleted).memory ≠ "all" := by decide

/-- C4 (amended): `setFilter` with a value outside the three legal
filters never raises to the caller (the model is a total function) and
leaves both the active and the persisted filter unchanged, recording an
`INVALID_DATA` error state instead of silently storing the `"all"`
fallback; in particular, from the default `"all"` state the filter stays
`"all"`. -/
theorem claim4_invalid_noop (value : String) (st : FilterStore)
    (h : (validateFilter value).isValid = false) :
    (setFilterValue value st).memory = st.memory ∧
    (setFilterValue value st).persisted = st.persisted ∧
    (setFilterValue value st).errorState.hasError = true := by
  unfold setFilterValue
  simp [h]

/-- Witness for C4 at the spec's scenario state. -/
theorem claim4_witness :
    (setFilterValue "bogus" ⟨"all", some "all", noError, true⟩).memory = "all" ∧
    (setFilterValue "bogus" ⟨"all", some "all", noError, true⟩).persisted = some "all" ∧
    (setFilterValue "bogus" ⟨"all", some "all", noError, true⟩).errorState.hasError = true := by
  have h := claim4_invalid_noop "bogus" ⟨"all", some "all", noError, true⟩ (by decide)
  exact ⟨h.1, h.2.1, h.2.2⟩

/-- C5: when the description fails validation, `addTask` throws the
validator's specific message — one of the three failure messages — to
the caller and leaves the collection unchanged. -/
theorem claim5_addTask_rejects (now : Int) (freshId description : String)
    (tasks : List Task)
    (h : (validateTaskDescription description).isValid = false) :
    addTask now freshId description tasks =
      ((validateTaskDescription description).error, tasks) ∧
    ((validateTaskDescription description).error =
        some "Task description cannot be empty" ∨
     (validateTaskDescription description).error =
        some "Task description must be 500 characters or less" ∨
     (validateTaskDescription description).error =
        some "Task description contains invalid characters") := by
  constructor
  · simp only [addTask, h]
    simp
  · rcases validateTaskDescription_cases description with hc | hc | hc | hc
    · rw [hc] at h; simp at h
    · rw [hc]; exact Or.inl rfl
    · rw [hc]; exact Or.inr (Or.inl rfl)
    · rw [hc]; exact Or.inr (Or.inr rfl)

/-- Witness for C5 at a denylisted description whose sanitized form is
non-empty. -/
theorem claim5_witness :
    addTask 0 "z" "javascript:x" [] =
      (some "Task description contains invalid characters", []) := by
  have hv : validateTaskDescription "javascript:x" =
      ⟨false, some "Task description contains invalid characters", "x"⟩ := by
    unfold validateTaskDescription
    rw [sanitizeInput_jsProto]
    simp +decide [hasSuspiciousContent, containsCI, startsWithCI]
  have h := claim5_addTask_rejects 0 "z" "javascript:x" [] (by rw [hv])
  rw [h.1, hv]

/-- C6 (code bug): on a quota-class `setItem` failure while writing the
tasks collection, the adapter deletes the non-essential keys and reports
`QUOTA_EXCEEDED` with the in-memory collection still containing the new
task — but the retry write never reaches the store (the retry expression
evaluates the catch-scoped `valueToStore` in its temporal dead zone and
the resulting `ReferenceError` is swallowed). Concretely: with a store
scripted to fail the first `setItem` with a quota error and accept the
second, the persisted `tasks` entry is unchanged and the second outcome
is never consumed. -/
theorem claim6_quota_write :
    setTasksValue 0 [taskA, taskB] quotaStore =
      { memory := [taskA, taskB]
        tasksV := some [taskA]
        filterV := none
        themeV := none
        errorState := ⟨true, some "QUOTA_EXCEEDED",
          some "Storage quota exceeded. Try deleting some tasks or clearing browser data."⟩
        available := true
        setOutcomes := [SetOutcome.ok] } := by
  simp +decide [setTasksValue, validateTasksArray, validateTasksAux, validateTaskObject,
    sanitizeRawTask, Task.toRaw, truthy, validateTaskDescription, taskA, taskB,
    sanitizeInput_buyMilk, sanitizeInput_walkDog, hasSuspiciousContent, containsCI,
    startsWithCI, quotaStore, noError]

/-- C7: toggling the same id twice restores the collection exactly, and
a single `toggleTask` with a valid id maps each position to itself
except that a task whose id matches has (only) its `completed` field
flipped — `order` and all other fields are untouched. -/
theorem claim7_toggle :
    (∀ (tasks : List Task) (tid : String),
        toggleTask tid (toggleTask tid tasks) = tasks) ∧
    (∀ (tasks : List Task) (tid : String) (i : Nat) (t : Task),
        tid ≠ "" → tasks.get? i = some t →
        (toggleTask tid tasks).get? i =
          some (if t.id = tid then { t with completed := !t.completed } else t)) := by
  constructor
  · intro tasks tid
    by_cases hid : tid = ""
    · simp [toggleTask, hid]
    · simp only [toggleTask, if_neg hid]
      have hff : ∀ t : Task,
          (if (if t.id = tid then { t with completed := !t.completed } else t).id = tid then
            { (if t.id = tid then { t with completed := !t.completed } else t) with
              completed := !(if t.id = tid then { t with completed := !t.completed } else t).completed }
          else (if t.id = tid then { t with completed := !t.completed } else t)) = t := by
        intro t
        by_cases h : t.id = tid
        · simp only [if_pos h, Bool.not_not]
        · simp [h]
      induction tasks with
      | nil => rfl
      | cons a l ih =>
        simp only [List.map_cons]
        rw [ih]
        congr 1
        exact hff a
  · intro tasks tid i t hid hget
    simp only [toggleTask, if_neg hid, List.get?_map, hget]
    rfl

/-- Witness for C7 at a concrete input. -/
theorem claim7_witness :
    toggleTask "a" (toggleTask "a" [taskA]) = [taskA] ∧
    (toggleTask "a" [taskA]).get? 0 =
      some (if taskA.id = "a" then { taskA with completed := !taskA.completed } else taskA) :=
  ⟨claim7_toggle.1 [taskA] "a", claim7_toggle.2 [taskA] "a" 0 taskA (by decide) (by decide)⟩

/-- C8 (counterexample): `reorderTasks` does not accept only integer
indices: the fractional index `1/2` passes every guard on a two-element
collection (it is a number, non-negative, and less than the length) and
the call is not a no-op — `splice` truncates it to `0` and the two tasks
are swapped. -/
theorem claim8_counterexample :
    reorderTasks (JSV.num (mkRat 1 2)) (JSV.num 1) [taskA, taskB] ≠ [taskA, taskB] := by
  decide

/-- C8 (amended): `reorderTasks` validates that both indices are numbers,
non-negative, and strictly below the collection length, and on any
failure of these guards it is a no-op (and, being a total function,
never throws); integrality is not checked — an in-range fractional index
is accepted and truncated (see the counterexample). -/
theorem claim8_reorder_guards :
    (∀ (tasks : List Task) (s e : JSV),
        s.isNum = false ∨ e.isNum = false → reorderTasks s e tasks = tasks) ∧
    (∀ (tasks : List Task) (qs qe : Rat),
        qs < 0 ∨ qe < 0 → reorderTasks (JSV.num qs) (JSV.num qe) tasks = tasks) ∧
    (∀ (tasks : List Task) (qs qe : Rat),
        ((tasks.length : Rat) ≤ qs ∨ (tasks.length : Rat) ≤ qe) →
        reorderTasks (JSV.num qs) (JSV.num qe) tasks = tasks) := by
  refine ⟨?_, ?_, ?_⟩
  · intro tasks s e h
    cases s <;> cases e <;> first
      | rfl
      | (exfalso; simp [JSV.isNum] at h)
  · intro tasks qs qe h
    simp [reorderTasks, h]
  · intro tasks qs qe h
    by_cases h1 : qs < 0 ∨ qe < 0
    · simp [reorderTasks, h1]
    · simp [reorderTasks, h1, h]

/-- Witness for C8 instantiating each guard. -/
theorem claim8_witness :
    reorderTasks (JSV.str "x") (JSV.num 0) [taskA] = [taskA] ∧
    reorderTasks (JSV.num (-1)) (JSV.num 0) [taskA] = [taskA] ∧
    reorderTasks (JSV.num 5) (JSV.num 0) [taskA] = [taskA] :=
  ⟨claim8_reorder_guards.1 [taskA] (JSV.str "x") (JSV.num 0) (Or.inl (by decide)),
   claim8_reorder_guards.2.1 [taskA] (-1) 0 (Or.inl (by norm_num)),
   claim8_reorder_guards.2.2 [taskA] 5 0 (Or.inl (by norm_num))⟩

/-- C9 (counterexample): `validateTasksArray` is not deterministic in its
input alone: it reads the clock (`Date.now()`) to default `createdAt`.
On a well-formed task with no `createdAt` field, two runs at clock
readings `0` and `1` produce different outputs. -/
theorem claim9_counterexample :
    validateTasksArray 0 [rawNoDate] ≠ validateTasksArray 1 [rawNoDate] := by
  have h0 : (validateTasksArray 0 [rawNoDate]).sanitizedTasks =
      [⟨"a", "buy milk", false, DateV.ofMillis 0, 0⟩] := by
    simp +decide [validateTasksArray, validateTasksAux, validateTaskObject, sanitizeRawTask,
      rawNoDate, truthy, validateTaskDescription, sanitizeInput_buyMilk,
      hasSuspiciousContent, containsCI, startsWithCI]
  have h1 : (validateTasksArray 1 [rawNoDate]).sanitizedTasks =
      [⟨"a", "buy milk", false, DateV.ofMillis 1, 0⟩] := by
    simp +decide [validateTasksArray, validateTasksAux, validateTaskObject, sanitizeRawTask,
      rawNoDate, truthy, validateTaskDescription, sanitizeInput_buyMilk,
      hasSuspiciousContent, containsCI, startsWithCI]
  intro he
  rw [he, h1] at h0
  exact absurd h0 (by decide)

/-- C9 (amended): the validation-gate functions are pure functions of
their inputs and, for `validateTasksArray`, the clock: the clock is read
only to default a missing/falsy `createdAt`, so on a collection in which
every task's `createdAt` is a `Date` or a non-empty string the output is
independent of the clock reading. -/
theorem claim9_validation_determinism
    (rts : List RawTask) (n1 n2 : Int)
    (h : ∀ rt ∈ rts, (validateTaskObject rt).isValid = true →
         (∃ d, rt.createdAt = some (JSV.date d)) ∨
         (∃ s, s ≠ "" ∧ rt.createdAt = some (JSV.str s))) :
    validateTasksArray n1 rts = validateTasksArray n2 rts := by
  have aux : ∀ (i : Nat) (l : List RawTask),
      (∀ rt ∈ l, (validateTaskObject rt).isValid = true →
        (∃ d, rt.createdAt = some (JSV.date d)) ∨
        (∃ s, s ≠ "" ∧ rt.createdAt = some (JSV.str s))) →
      validateTasksAux n1 i l = validateTasksAux n2 i l := by
    intro i l
    induction l generalizing i with
    | nil => intro _; rfl
    | cons rt rest ih =>
      intro hl
      have hrest := fun r hr => hl r (List.mem_cons_of_mem rt hr)
      simp only [validateTasksAux]
      rw [ih (i + 1) hrest]
      by_cases hv : (validateTaskObject rt).isValid = true
      · have hsan : sanitizeRawTask n1 i rt = sanitizeRawTask n2 i rt := by
          rcases hl rt (List.mem_cons_self rt rest) hv with ⟨d, hd⟩ | ⟨s, hs, hcd⟩
          · simp [sanitizeRawTask, hd]
          · simp [sanitizeRawTask, hcd, truthy, hs]
        rw [hsan]
      · simp [hv]
  unfold validateTasksArray
  rw [aux 0 rts h]

/-- Witness for C9 at the load-repair scenario: one element is dropped
(missing description) and also lacks `createdAt`, while the surviving
one carries a `Date`; the result is clock-independent. -/
theorem claim9_witness :
    validateTasksArray 0 [rawMissingDesc, rawOrderFive] =
      validateTasksArray 5 [rawMissingDesc, rawOrderFive] :=
  claim9_validation_determinism [rawMissingDesc, rawOrderFive] 0 5 (by
    intro rt hrt hv
    rcases List.mem_cons.1 hrt with heq | hrt2
    · subst heq
      exact absurd hv (by decide)
    · have heq := List.mem_singleton.1 hrt2
      subst heq
      exact Or.inl ⟨DateV.ofMillis 0, rfl⟩)

/-- C10: whenever the sanitized form of the input is empty,
`validateTaskDescription` reports the empty-description failure — the
empty check precedes the denylist check (which tests the original
input), so even denylisted inputs like `<iframe>` yield the
empty-description error. -/
theorem claim10_empty_precedence (description : String)
    (h : sanitizeInput description = "") :
    validateTaskDescription description =
      ⟨false, some "Task description cannot be empty", ""⟩ := by
  unfold validateTaskDescription
  rw [if_pos h]

/-- Witness for C10 at the two denylisted inputs of the claim: both
sanitize to empty and get the empty-description error even though the
denylist matches the originals. -/
theorem claim10_witness :
    validateTaskDescription "<iframe>" =
      ⟨false, some "Task description cannot be empty", ""⟩ ∧
    validateTaskDescription "<script>" =
      ⟨false, some "Task description cannot be empty", ""⟩ ∧
    hasSuspiciousContent "<iframe>" = true ∧
    hasSuspiciousContent "<script>" = true :=
  ⟨claim10_empty_precedence "<iframe>" sanitizeInput_iframe,
   claim10_empty_precedence "<script>" sanitizeInput_scriptTag,
   by decide, by decide⟩

end TaskManager
